import Mathlib

/-!
Verification of `manila/policy.py`, the policy-engine facade of the manila
repository.  The module keeps a process-wide singleton `_ENFORCER`, lazily
constructed by `init` and discarded by `reset`, and exposes `enforce`,
`authorize`, `check_is_admin` and `check_policy`, which build a target
dictionary from the request context and delegate rule evaluation to the
external oslo.policy enforcer.

The lifecycle (`init`/`reset`) is modelled as explicit state passing over a
`ModuleState`; the external oslo.policy enforcer, which is not part of this
repository, is modelled from the spec as an abstract decision structure
`OsloEnforcer` together with its documented raise/return contract.
Python dictionaries are association lists with Python `update` semantics,
exceptions are an explicit `PolicyExc` type threaded through `Except`, and
logging side effects are recorded as a list of `LogEntry`.
-/

/-- A Python `dict` with string keys and values, as used for policy targets
and credentials: an association list, looked up by first match. -/
abbrev Dict := List (String × String)

/-- Python `d.get(k)` / `d[k]`: value of the first entry whose key is `k`. -/
def Dict.get? (d : Dict) (k : String) : Option String :=
  (d.find? (fun p => p.1 == k)).map Prod.snd

/-- The per-entry effect of Python `d.update(u)` on an entry of `d`: it
keeps its key, and takes the value from `u` when `u` has that key. -/
def updEntry (u : Dict) (p : String × String) : String × String :=
  match u.find? (fun q => q.1 == p.1) with
  | some q => (p.1, q.2)
  | none => p

/-- Python `d.update(u)`: keys already in `d` keep their position but take
the value from `u`; keys of `u` not in `d` are appended in order. -/
def Dict.update (d u : Dict) : Dict :=
  d.map (updEntry u) ++ u.filter (fun q => !(d.any (fun p => p.1 == q.1)))

/-- Exceptions that can cross the module boundary:
`manila.exception.PolicyNotAuthorized`, `oslo_policy.policy.PolicyNotRegistered`,
a caller-supplied exception class applied to the action, or any other failure
raised during rule evaluation. -/
inductive PolicyExc where
  | policyNotAuthorized (action : String)
  | policyNotRegistered (rule : String)
  | custom (excName : String) (action : String)
  | otherError (msg : String)
deriving DecidableEq, Repr

/-- Whether an exception is the oslo.policy `PolicyNotRegistered` error,
the class matched by the first `except` clause of `authorize`. -/
def PolicyExc.isNotRegistered : PolicyExc → Bool
  | .policyNotRegistered _ => true
  | _ => false

/-- A log record emitted by the module: `LOG.exception` (error level, in the
`PolicyNotRegistered` handler) or `LOG.debug` with the action and the
credentials (in the generic handler). -/
inductive LogEntry where
  | errorLog (msg : String)
  | debugLog (action : String) (credentials : Dict)
deriving DecidableEq, Repr

/-- The request context: `project_id` and `user_id` attributes, plus the
results of its `to_dict()` and `to_policy_values()` conversion methods. -/
structure Context where
  project_id : String
  user_id : String
  to_dict : Dict
  to_policy_values : Dict

/-- The first argument of `enforce` may already be a plain `dict` (the
`isinstance(context, dict)` branch) or a context object. -/
inductive ContextArg where
  | dict (d : Dict)
  | ctx (c : Context)

/-- The credentials mapping `enforce` passes on: the argument itself when it
is a `dict`, otherwise `context.to_dict()`. -/
def ContextArg.asCreds : ContextArg → Dict
  | .dict d => d
  | .ctx c => c.to_dict

/-- Modelled from the spec: the external oslo.policy `Enforcer`, whose rule
parsing and matching are not part of this repository.  `registered` says
which actions have a registered policy (consulted by its `authorize`),
`decide` is the rule evaluation on an action, target and credentials, and
`failure` models any other exception rule evaluation may raise. -/
structure OsloEnforcer where
  registered : String → Bool
  decide : String → Dict → Dict → Bool
  failure : String → Option PolicyExc

/-- Modelled from the spec: oslo.policy `Enforcer.enforce(rule, target,
creds, do_raise, exc, **kwargs)` — evaluates the rule; on denial with
`do_raise` it raises `exc(**kwargs)` (or its own default error when no `exc`
is given), otherwise it returns the evaluation result. -/
def OsloEnforcer.enforce (E : OsloEnforcer) (rule : String) (target creds : Dict)
    (doRaise : Bool) (exc : Option PolicyExc) : Except PolicyExc Bool :=
  let result := E.decide rule target creds
  if doRaise && !result then
    match exc with
    | some e => .error e
    | none => .error (.policyNotAuthorized rule)
  else .ok result

/-- Modelled from the spec: oslo.policy `Enforcer.authorize` — like
`enforce`, but first raises `PolicyNotRegistered` when the action has no
registered policy; `failure` models any other exception evaluation raises. -/
def OsloEnforcer.authorize (E : OsloEnforcer) (rule : String) (target creds : Dict)
    (doRaise : Bool) (exc : Option PolicyExc) : Except PolicyExc Bool :=
  if E.registered rule then
    match E.failure rule with
    | some e => .error e
    | none => E.enforce rule target creds doRaise exc
  else .error (.policyNotRegistered rule)

/-- The module-level enforcer handle: identity of the instance, the
constructor arguments it was built with, and how many times
`register_defaults` ran on it. -/
structure Enforcer where
  id : Nat
  rulesArg : Option Dict
  useConf : Bool
  registeredDefaults : Nat
deriving DecidableEq, Repr

/-- `policy.Enforcer(CONF, rules=rules, use_conf=use_conf)`: a fresh
instance (identified by a fresh `id`) with no defaults registered yet. -/
def enforcerNew (id : Nat) (rules : Option Dict) (use_conf : Bool) : Enforcer :=
  { id := id, rulesArg := rules, useConf := use_conf, registeredDefaults := 0 }

/-- `register_rules(enforcer)`: `enforcer.register_defaults(policies.list_rules())`,
counted on the instance. -/
def register_rules (e : Enforcer) : Enforcer :=
  { e with registeredDefaults := e.registeredDefaults + 1 }

/-- The module state: the global `_ENFORCER` (None or an instance) plus a
counter supplying fresh instance identities. -/
structure ModuleState where
  nextId : Nat
  enforcer : Option Enforcer
deriving DecidableEq, Repr

/-- The state at import time: `_ENFORCER = None`. -/
def initialState : ModuleState := { nextId := 0, enforcer := none }

/-- `init(rules, use_conf)`: when `_ENFORCER` is unset, construct it and
register the default rules; otherwise do nothing. -/
def init (rules : Option Dict) (use_conf : Bool) (s : ModuleState) : ModuleState :=
  match s.enforcer with
  | some _ => s
  | none =>
      { nextId := s.nextId + 1,
        enforcer := some (register_rules (enforcerNew s.nextId rules use_conf)) }

/-- `reset()`: when `_ENFORCER` is set, clear it and set the global back to
None; otherwise do nothing. -/
def reset (s : ModuleState) : ModuleState :=
  match s.enforcer with
  | some _ => { s with enforcer := none }
  | none => s

/-- Well-formedness of a module state: any held enforcer was created by a
past tick of the identity counter.  Holds for every state reachable from
`initialState` by `init` and `reset` steps. -/
def stateWF (s : ModuleState) : Bool :=
  match s.enforcer with
  | some e => e.id < s.nextId
  | none => true

/-- `enforce(context, action, target, do_raise)`: normalize the context to a
dict, and delegate to the shared enforcer, passing
`exc=PolicyNotAuthorized, action=action, do_raise=do_raise` only when
`do_raise` is set. -/
def enforceRun (E : OsloEnforcer) (context : ContextArg) (action : String)
    (target : Dict) (do_raise : Bool) : Except PolicyExc Bool :=
  let creds := context.asCreds
  if do_raise then
    E.enforce action target creds true (some (.policyNotAuthorized action))
  else
    E.enforce action target creds false none

/-- `authorize(context, action, target, do_raise, exc)`: credentials come
from `context.to_policy_values()`; a falsy `exc` defaults to
`PolicyNotAuthorized`; a `PolicyNotRegistered` failure of the underlying
`authorize` is logged at error level and re-raised, any other exception is
logged at debug level with the action and credentials and re-raised.
The exception class receives `action` as its argument. -/
def authorizeRun (E : OsloEnforcer) (context : Context) (action : String)
    (target : Dict) (do_raise : Bool) (exc : Option (String → PolicyExc)) :
    Except PolicyExc Bool × List LogEntry :=
  let credentials := context.to_policy_values
  let excClass := exc.getD (fun a => .policyNotAuthorized a)
  match E.authorize action target credentials do_raise (some (excClass action)) with
  | .ok r => (.ok r, [])
  | .error e =>
      if e.isNotRegistered then
        (.error e, [.errorLog "Policy not registered"])
      else
        (.error e, [.debugLog action credentials])

/-- `check_is_admin(context)`: delegate `context_is_admin` to the shared
enforcer with `context.to_policy_values()` as both target and credentials,
with oslo defaults (`do_raise=False`, no `exc`), returning its result. -/
def check_is_adminRun (E : OsloEnforcer) (context : Context) : Except PolicyExc Bool :=
  let credentials := context.to_policy_values
  let target := credentials
  E.authorize "context_is_admin" target credentials false none

/-- The resource allow-list of `check_policy` choosing the `authorize`
path; any other resource takes the legacy `enforce` path. -/
def checkPolicyResources : List String :=
  ["share_instance_export_location", "share_type",
   "share", "share_snapshot",
   "share_snapshot_export_location",
   "share_snapshot_instance",
   "share_snapshot_instance_export_location",
   "quota_set", "quota_class_set", "service",
   "share_server", "share_group", "share_group_snapshot",
   "share_group_type", "share_group_types_spec"]

/-- Which underlying call `check_policy` made, with the composed action,
the built target and the `do_raise` flag it passed. -/
inductive DelegatedCall where
  | authorizeCall (action : String) (target : Dict) (do_raise : Bool)
  | enforceCall (action : String) (target : Dict) (do_raise : Bool)
deriving DecidableEq, Repr

/-- The composed action string of the delegated call. -/
def DelegatedCall.callAction : DelegatedCall → String
  | .authorizeCall a _ _ => a
  | .enforceCall a _ _ => a

/-- The target dictionary of the delegated call. -/
def DelegatedCall.callTarget : DelegatedCall → Dict
  | .authorizeCall _ t _ => t
  | .enforceCall _ t _ => t

/-- The `do_raise` flag of the delegated call. -/
def DelegatedCall.callDoRaise : DelegatedCall → Bool
  | .authorizeCall _ _ dr => dr
  | .enforceCall _ _ dr => dr

/-- The observable outcome of `check_policy`: the returned value (always
`()`), any log records, and the delegated call that was made. -/
structure CheckPolicyOut where
  result : Except PolicyExc Unit
  logs : List LogEntry
  call : DelegatedCall

/-- `check_policy(context, resource, action, target_obj)`: build the target
from `project_id` and `user_id` updated with `target_obj or {}`, compose
`"resource:action"`, and dispatch on membership of `resource` in the
allow-list to `authorize` or `enforce`, discarding their result. -/
def check_policyRun (E : OsloEnforcer) (context : Context) (resource action : String)
    (target_obj : Option Dict) : CheckPolicyOut :=
  let target :=
    Dict.update [("project_id", context.project_id), ("user_id", context.user_id)]
      (target_obj.getD [])
  let composed := resource ++ ":" ++ action
  if resource ∈ checkPolicyResources then
    let out := authorizeRun E context composed target true none
    { result := out.1.map (fun _ => ()), logs := out.2,
      call := .authorizeCall composed target true }
  else
    { result := (enforceRun E (.ctx context) composed target true).map (fun _ => ()),
      logs := [],
      call := .enforceCall composed target true }

/-- Concrete context used to witness the theorems. -/
def ctx0 : Context :=
  { project_id := "p1", user_id := "u1",
    to_dict := [("project_id", "p1"), ("user_id", "u1"), ("is_admin", "False")],
    to_policy_values := [("project_id", "p1"), ("user_id", "u1")] }

/-- Concrete enforcer that denies every action. -/
def encDeny : OsloEnforcer :=
  { registered := fun _ => true, decide := fun _ _ _ => false, failure := fun _ => none }

/-- Concrete enforcer that allows every action. -/
def encAllow : OsloEnforcer :=
  { registered := fun _ => true, decide := fun _ _ _ => true, failure := fun _ => none }

/-- Concrete enforcer with no registered policies at all. -/
def encUnregistered : OsloEnforcer :=
  { registered := fun _ => false, decide := fun _ _ _ => true, failure := fun _ => none }

/-- Concrete enforcer whose evaluation raises an unrelated exception. -/
def encBroken : OsloEnforcer :=
  { registered := fun _ => true, decide := fun _ _ _ => true,
    failure := fun _ => some (.otherError "boom") }

theorem find?_filter_of_imp {α : Type} (l : List α) (g p : α → Bool)
    (h : ∀ x, p x = true → g x = true) : (l.filter g).find? p = l.find? p := by
  induction l with
  | nil => rfl
  | cons a l ih =>
      by_cases hp : p a = true
      · rw [List.filter_cons, h a hp]
        simp [List.find?_cons, hp]
      · rw [List.filter_cons]
        by_cases hg : g a = true
        · simp only [hg, if_pos]
          simp [List.find?_cons, hp, ih]
        · simp only [hg, Bool.false_eq_true, if_neg, not_false_iff]
          rw [ih, List.find?_cons]
          simp [hp]

theorem updEntry_key (u : Dict) (p : String × String) : (updEntry u p).1 = p.1 := by
  unfold updEntry
  cases u.find? (fun q => q.1 == p.1) <;> rfl

theorem find?_map_updEntry (d u : Dict) (k : String) :
    (d.map (updEntry u)).find? (fun q => q.1 == k) =
      (d.find? (fun q => q.1 == k)).map (updEntry u) := by
  rw [List.find?_map]
  have hpred : ((fun q : String × String => q.1 == k) ∘ updEntry u) =
      (fun q : String × String => q.1 == k) := by
    funext p
    simp only [Function.comp_apply, updEntry_key]
  rw [hpred]

/-- Lookup in an updated dict: the updating entries win, the base entries
answer the remaining keys. -/
theorem Dict.get?_update (d u : Dict) (k : String) :
    (Dict.update d u).get? k = ((u.get? k).or (d.get? k)) := by
  unfold Dict.update Dict.get?
  rw [List.find?_append, find?_map_updEntry]
  cases hd : d.find? (fun q => q.1 == k) with
  | some p0 =>
      have hb := List.find?_some hd
      have hk : p0.1 = k := eq_of_beq (by simpa using hb)
      cases hu : u.find? (fun q => q.1 == k) with
      | some q =>
          have hent : updEntry u p0 = (p0.1, q.2) := by
            unfold updEntry
            rw [hk, hu]
          simp [hent, hu]
      | none =>
          have hent : updEntry u p0 = p0 := by
            unfold updEntry
            rw [hk, hu]
          simp [hent, hu]
  | none =>
      have hnone : ∀ a ∈ d, ¬ ((fun q : String × String => q.1 == k) a = true) :=
        List.find?_eq_none.mp hd
      rw [find?_filter_of_imp]
      · cases hu : u.find? (fun q => q.1 == k) <;> simp
      · intro x hx
        have hxk : x.1 = k := eq_of_beq hx
        simp only [Bool.not_eq_eq_eq_not, Bool.not_true]
        rw [List.any_eq_false]
        intro p hp
        have hnp := hnone p hp
        simp only [hxk]
        simpa using hnp

theorem init_of_none (r : Option Dict) (uc : Bool) (s : ModuleState)
    (h : s.enforcer = none) :
    init r uc s =
      { nextId := s.nextId + 1,
        enforcer := some (register_rules (enforcerNew s.nextId r uc)) } := by
  simp [init, h]

theorem init_of_some (r : Option Dict) (uc : Bool) (s : ModuleState) (e : Enforcer)
    (h : s.enforcer = some e) : init r uc s = s := by
  simp [init, h]

/-- C2: `init` is idempotent: on an uninitialized module the first call
constructs the enforcer and registers the static default rule set exactly
once, and every subsequent `init` call, with any arguments, is a no-op that
leaves the identical singleton state (same instance, same registration
count) in place. -/
theorem init_idempotent (r r2 : Option Dict) (uc uc2 : Bool) (s : ModuleState)
    (h : s.enforcer = none) :
    (∃ e, (init r uc s).enforcer = some e ∧ e.registeredDefaults = 1 ∧
      e.id = s.nextId) ∧
    init r2 uc2 (init r uc s) = init r uc s := by
  rw [init_of_none r uc s h]
  constructor
  · exact ⟨register_rules (enforcerNew s.nextId r uc), rfl, rfl, rfl⟩
  · exact init_of_some r2 uc2 _ _ rfl

/-- C2 witness: a first `init` on the import-time state registers the rules
once, and a second `init` with different arguments changes nothing. -/
theorem init_idempotent_witness :
    (∃ e, (init none true initialState).enforcer = some e ∧
      e.registeredDefaults = 1 ∧ e.id = initialState.nextId) ∧
    init (some [("share", "rule:admin")]) false (init none true initialState) =
      init none true initialState :=
  init_idempotent none (some [("share", "rule:admin")]) true false initialState rfl

/-- C7: `reset` discards the shared enforcer (leaving the module with none);
a following `init` constructs a new instance, distinct from the previous
one, with the default rules freshly registered; and `reset` on an
uninitialized module is a no-op. -/
theorem reset_then_init (r : Option Dict) (uc : Bool) (s : ModuleState) (e : Enforcer)
    (hwf : stateWF s = true) (h : s.enforcer = some e) :
    (reset s).enforcer = none ∧
    (∃ e2, (init r uc (reset s)).enforcer = some e2 ∧ e2.id ≠ e.id ∧
      e2.registeredDefaults = 1) ∧
    (∀ t : ModuleState, t.enforcer = none → reset t = t) := by
  have hre : reset s = { s with enforcer := none } := by simp [reset, h]
  have hid : e.id < s.nextId := by
    have := hwf
    unfold stateWF at this
    rw [h] at this
    simpa using this
  refine ⟨by rw [hre], ?_, ?_⟩
  · refine ⟨register_rules (enforcerNew s.nextId r uc), ?_, ?_, rfl⟩
    · rw [hre, init_of_none r uc _ rfl]
    · simp only [register_rules, enforcerNew]
      omega
  · intro t ht
    simp [reset, ht]

/-- C7 witness: resetting an initialized module clears the enforcer, and
re-initializing builds a distinct, freshly-registered instance. -/
theorem reset_then_init_witness :
    (reset (init none true initialState)).enforcer = none ∧
    (∃ e2, (init none true (reset (init none true initialState))).enforcer = some e2 ∧
      e2.id ≠ (register_rules (enforcerNew 0 none true)).id ∧
      e2.registeredDefaults = 1) ∧
    (∀ t : ModuleState, t.enforcer = none → reset t = t) :=
  reset_then_init none true (init none true initialState)
    (register_rules (enforcerNew 0 none true)) (by decide) rfl

/-- C4: `enforce` with `do_raise=True` raises `PolicyNotAuthorized` when the
policy check denies the action, and returns a truthy result when the check
allows it. -/
theorem enforce_do_raise (E : OsloEnforcer) (context : ContextArg)
    (action : String) (target : Dict) :
    (E.decide action target context.asCreds = false →
      enforceRun E context action target true =
        .error (.policyNotAuthorized action)) ∧
    (E.decide action target context.asCreds = true →
      enforceRun E context action target true = .ok true) := by
  constructor <;> intro h <;>
    simp [enforceRun, OsloEnforcer.enforce, h]

/-- C4 witness: a denying enforcer makes `enforce` with `do_raise=True`
raise `PolicyNotAuthorized`, and an allowing one makes it return `True`. -/
theorem enforce_do_raise_witness :
    enforceRun encDeny (.ctx ctx0) "share:create" [("project_id", "p1")] true =
      .error (.policyNotAuthorized "share:create") ∧
    enforceRun encAllow (.ctx ctx0) "share:create" [("project_id", "p1")] true =
      .ok true :=
  ⟨(enforce_do_raise encDeny (.ctx ctx0) "share:create" [("project_id", "p1")]).1 rfl,
   (enforce_do_raise encAllow (.ctx ctx0) "share:create" [("project_id", "p1")]).2 rfl⟩

/-- C5: `enforce` with `do_raise=False` never raises: it returns exactly the
boolean policy decision, falsy on denial and truthy on allowance. -/
theorem enforce_no_raise (E : OsloEnforcer) (context : ContextArg)
    (action : String) (target : Dict) :
    enforceRun E context action target false =
      .ok (E.decide action target context.asCreds) := by
  simp [enforceRun, OsloEnforcer.enforce]

/-- C6: on denial with `do_raise=True`, `authorize` with a non-None `exc`
raises that caller-supplied exception class applied to the action, and with
`exc=None` it raises the default `PolicyNotAuthorized`. -/
theorem authorize_custom_exc (E : OsloEnforcer) (c : Context) (action : String)
    (target : Dict) (excClass : String → PolicyExc)
    (hreg : E.registered action = true) (hfail : E.failure action = none)
    (hdeny : E.decide action target c.to_policy_values = false) :
    (authorizeRun E c action target true (some excClass)).1 =
      .error (excClass action) ∧
    (authorizeRun E c action target true none).1 =
      .error (.policyNotAuthorized action) := by
  have hu1 : E.authorize action target c.to_policy_values true
      (some (excClass action)) = .error (excClass action) := by
    simp [OsloEnforcer.authorize, OsloEnforcer.enforce, hreg, hfail, hdeny]
  have hu2 : E.authorize action target c.to_policy_values true
      (some (.policyNotAuthorized action)) = .error (.policyNotAuthorized action) := by
    simp [OsloEnforcer.authorize, OsloEnforcer.enforce, hreg, hfail, hdeny]
  constructor
  · simp only [authorizeRun, Option.getD_some, hu1]
    cases he : (excClass action).isNotRegistered <;> simp [he]
  · simp only [authorizeRun, Option.getD_none, hu2]
    simp [PolicyExc.isNotRegistered]

/-- C6 witness: with a caller-supplied exception class the denial raises
that class applied to the action; without one it raises the default. -/
theorem authorize_custom_exc_witness :
    (authorizeRun encDeny ctx0 "share:delete" [] true
        (some (fun a => .custom "ShareBusy" a))).1 =
      .error (.custom "ShareBusy" "share:delete") ∧
    (authorizeRun encDeny ctx0 "share:delete" [] true none).1 =
      .error (.policyNotAuthorized "share:delete") :=
  authorize_custom_exc encDeny ctx0 "share:delete" []
    (fun a => .custom "ShareBusy" a) rfl rfl rfl

/-- C3: when the underlying enforcer call inside `authorize` fails,
`authorize` re-raises that exact exception unchanged: with one error-level
log record when the failure is `PolicyNotRegistered`, and with one
debug-level log record of the action and credentials for any other
exception. -/
theorem authorize_reraises (E : OsloEnforcer) (c : Context) (action : String)
    (target : Dict) (dr : Bool) (exc : Option (String → PolicyExc)) (e : PolicyExc)
    (h : E.authorize action target c.to_policy_values dr
        (some ((exc.getD (fun a => .policyNotAuthorized a)) action)) = .error e) :
    authorizeRun E c action target dr exc =
      (.error e,
        if e.isNotRegistered then [LogEntry.errorLog "Policy not registered"]
        else [LogEntry.debugLog action c.to_policy_values]) := by
  simp only [authorizeRun, h]
  cases he : e.isNotRegistered <;> simp [he]

/-- C3 witness: an unregistered action makes `authorize` re-raise the
`PolicyNotRegistered` error with an error-level log, and an unrelated
evaluation failure is re-raised with a debug-level log. -/
theorem authorize_reraises_witness :
    authorizeRun encUnregistered ctx0 "share:get" [] true none =
      (.error (.policyNotRegistered "share:get"),
        [LogEntry.errorLog "Policy not registered"]) ∧
    authorizeRun encBroken ctx0 "share:get" [] true none =
      (.error (.otherError "boom"),
        [LogEntry.debugLog "share:get" ctx0.to_policy_values]) := by
  constructor
  · have h := authorize_reraises encUnregistered ctx0 "share:get" [] true none
      (.policyNotRegistered "share:get") rfl
    simpa using h
  · have h := authorize_reraises encBroken ctx0 "share:get" [] true none
      (.otherError "boom") rfl
    simpa using h

/-- C9: `check_is_admin` performs the check against the fixed action name
`context_is_admin`, passing the context's policy values as both the target
and the credentials, and returns the enforcer's result. -/
theorem check_is_admin_spec (E : OsloEnforcer) (c : Context)
    (hreg : E.registered "context_is_admin" = true)
    (hfail : E.failure "context_is_admin" = none) :
    check_is_adminRun E c =
      .ok (E.decide "context_is_admin" c.to_policy_values c.to_policy_values) := by
  simp [check_is_adminRun, OsloEnforcer.authorize, OsloEnforcer.enforce, hreg, hfail]

/-- C9 witness: on a concrete enforcer and context, `check_is_admin` returns
the decision for `context_is_admin` on the context's own policy values. -/
theorem check_is_admin_spec_witness :
    check_is_adminRun encAllow ctx0 =
      .ok (encAllow.decide "context_is_admin" ctx0.to_policy_values
        ctx0.to_policy_values) :=
  check_is_admin_spec encAllow ctx0 rfl rfl

/-- C1: `check_policy` delegates to `authorize` (with the composed action
and target and `do_raise=True`) exactly when the resource is one of the
fifteen allow-listed resource names, and to `enforce` (with the same
composed action and target) for every other resource string. -/
theorem check_policy_dispatch (E : OsloEnforcer) (c : Context)
    (resource action : String) (target_obj : Option Dict) :
    (resource ∈ ["share_instance_export_location", "share_type", "share",
        "share_snapshot", "share_snapshot_export_location",
        "share_snapshot_instance", "share_snapshot_instance_export_location",
        "quota_set", "quota_class_set", "service", "share_server",
        "share_group", "share_group_snapshot", "share_group_type",
        "share_group_types_spec"] →
      ∃ t, (check_policyRun E c resource action target_obj).call =
        .authorizeCall (resource ++ ":" ++ action) t true) ∧
    (resource ∉ ["share_instance_export_location", "share_type", "share",
        "share_snapshot", "share_snapshot_export_location",
        "share_snapshot_instance", "share_snapshot_instance_export_location",
        "quota_set", "quota_class_set", "service", "share_server",
        "share_group", "share_group_snapshot", "share_group_type",
        "share_group_types_spec"] →
      ∃ t, (check_policyRun E c resource action target_obj).call =
        .enforceCall (resource ++ ":" ++ action) t true) := by
  constructor
  · intro hmem
    have hm : resource ∈ checkPolicyResources := hmem
    refine ⟨Dict.update [("project_id", c.project_id), ("user_id", c.user_id)]
      (target_obj.getD []), ?_⟩
    simp [check_policyRun, hm]
  · intro hmem
    have hm : resource ∉ checkPolicyResources := hmem
    refine ⟨Dict.update [("project_id", c.project_id), ("user_id", c.user_id)]
      (target_obj.getD []), ?_⟩
    simp [check_policyRun, hm]

/-- C1 witness: the in-list resource `share` takes the `authorize` path and
the out-of-list resource `network` takes the `enforce` path. -/
theorem check_policy_dispatch_witness :
    (∃ t, (check_policyRun encAllow ctx0 "share" "create" none).call =
      .authorizeCall "share:create" t true) ∧
    (∃ t, (check_policyRun encAllow ctx0 "network" "create" none).call =
      .enforceCall "network:create" t true) :=
  ⟨(check_policy_dispatch encAllow ctx0 "share" "create" none).1 (by decide),
   (check_policy_dispatch encAllow ctx0 "network" "create" none).2 (by decide)⟩

/-- C8: `check_policy` composes the action string as `resource:action` and
builds the target as the `project_id`/`user_id` mapping updated with the
entries of `target_obj` (None behaving as the empty mapping): a lookup finds
the `target_obj` entry when one exists and otherwise falls back to the
context's ids. -/
theorem check_policy_target_action (E : OsloEnforcer) (c : Context)
    (resource action : String) (target_obj : Option Dict) :
    ((check_policyRun E c resource action target_obj).call).callAction =
      resource ++ ":" ++ action ∧
    ((check_policyRun E c resource action target_obj).call).callTarget =
      Dict.update [("project_id", c.project_id), ("user_id", c.user_id)]
        (target_obj.getD []) ∧
    (∀ k, (((check_policyRun E c resource action target_obj).call).callTarget).get? k =
      ((target_obj.getD []).get? k).or
        (Dict.get? [("project_id", c.project_id), ("user_id", c.user_id)] k)) := by
  by_cases hm : resource ∈ checkPolicyResources <;>
    refine ⟨?_, ?_, ?_⟩ <;>
    simp [check_policyRun, hm, DelegatedCall.callAction, DelegatedCall.callTarget,
      Dict.get?_update]

/-- C10: `check_policy` never reports the decision through its return
value: the returned value is always `()`, the delegated call is made with
`do_raise=True`, and a denial surfaces to the caller only as a raised
exception. -/
theorem check_policy_returns_none (E : OsloEnforcer) (c : Context)
    (resource action : String) (target_obj : Option Dict)
    (hreg : ∀ a, E.registered a = true) (hfail : ∀ a, E.failure a = none)
    (hdeny : ∀ a t cr, E.decide a t cr = false) :
    (∀ E2 c2 r2 a2 t2 (u : Unit),
      (check_policyRun E2 c2 r2 a2 t2).result = .ok u → u = ()) ∧
    ((check_policyRun E c resource action target_obj).call).callDoRaise = true ∧
    (∃ e, (check_policyRun E c resource action target_obj).result = .error e) := by
  refine ⟨fun _ _ _ _ _ u _ => rfl, ?_, ?_⟩
  · by_cases hm : resource ∈ checkPolicyResources <;>
      simp [check_policyRun, hm, DelegatedCall.callDoRaise]
  · by_cases hm : resource ∈ checkPolicyResources
    · refine ⟨.policyNotAuthorized (resource ++ ":" ++ action), ?_⟩
      simp [check_policyRun, hm, authorizeRun, OsloEnforcer.authorize,
        OsloEnforcer.enforce, hreg, hfail, hdeny, PolicyExc.isNotRegistered,
        Except.map]
    · refine ⟨.policyNotAuthorized (resource ++ ":" ++ action), ?_⟩
      simp [check_policyRun, hm, enforceRun, OsloEnforcer.enforce, hdeny,
        Except.map]

/-- C10 witness: with a denying enforcer, `check_policy` passes
`do_raise=True` and the denial comes back as a raised exception, while the
returned value is always `()`. -/
theorem check_policy_returns_none_witness :
    (∀ E2 c2 r2 a2 t2 (u : Unit),
      (check_policyRun E2 c2 r2 a2 t2).result = .ok u → u = ()) ∧
    ((check_policyRun encDeny ctx0 "share" "create" none).call).callDoRaise = true ∧
    (∃ e, (check_policyRun encDeny ctx0 "share" "create" none).result = .error e) :=
  check_policy_returns_none encDeny ctx0 "share" "create" none
    (fun _ => rfl) (fun _ => rfl) (fun _ _ _ => rfl)
